import Mathlib

/-!
Verification of the usbserial-xbee transmitter: payload bit-packing
(`setSendDataFromROSBus`), the byte-stuffing frame encoder with additive
checksum (the per-frame section of `main`), and the rate-limited
transmission loop. Machine integers are modelled as `Nat` with explicit
`% 256` at every `uint8_t` store; the serial transport is modelled as the
list of bytes written, in order.
-/

/-! ## Wire constants (from the source header) -/

def HEAD_BYTE : Nat := 0x7D

def ESCAPE_BYTE : Nat := 0x7E

def ESCAPE_MASK : Nat := 0x20

def HZ : Int := 120

/-! ## Payload packer

`setSendDataFromROSBus(uint8_t datatype, vu8 *buf)` reads the global fields
`x_vector, y_vector, th_vector, calib_data, command` (all `uint16_t`) and
appends the packed bytes of one datatype to `buf`.  Each byte is computed
into a `uint8_t tmp`, hence the `% 256` at every element. -/

structure PayloadState where
  x_vector : Nat
  y_vector : Nat
  th_vector : Nat
  calib_data : Nat
  command : Nat
deriving DecidableEq

def setSendDataFromROSBus (datatype : Nat) (st : PayloadState) (buf : List Nat) : List Nat :=
  match datatype with
  | 0 => buf ++ [(((0 &&& 0x7) <<< 5) ||| (st.x_vector >>> 7)) % 256,
                 (((st.x_vector &&& 0x7F) <<< 1) ||| (st.y_vector >>> 11)) % 256,
                 ((st.y_vector >>> 3) &&& 0xFF) % 256,
                 (((st.y_vector &&& 0x3F) <<< 5) ||| (st.th_vector >>> 8)) % 256,
                 (st.th_vector &&& 0xFF) % 256]
  | 1 => buf ++ [(((1 &&& 0x7) <<< 5) ||| (st.calib_data >>> 8)) % 256,
                 (st.calib_data &&& 0xFF) % 256]
  | 2 => buf ++ [(((2 &&& 0x7) <<< 5) ||| st.command) % 256]
  | _ => buf

/-! ## Frame encoder

The per-frame section of `main`: write `HEAD_BYTE`, seed `checksum` with it,
then for every buffer byte write an escape byte first when it collides with
`HEAD_BYTE`/`ESCAPE_BYTE` (the escape byte is not added to the checksum),
XOR the colliding byte with `ESCAPE_MASK`, write it and add the written
value to the checksum; finally truncate the checksum to 8 bits
(`checksum & 0xFF`), escape it the same way, and write it. -/

def encodeBody : List Nat → Nat → List Nat × Nat
  | [], checksum => ([], checksum)
  | b :: rest, checksum =>
    if b = HEAD_BYTE ∨ b = ESCAPE_BYTE then
      let b2 := b ^^^ ESCAPE_MASK
      let r := encodeBody rest (checksum + b2)
      (ESCAPE_BYTE :: b2 :: r.1, r.2)
    else
      let r := encodeBody rest (checksum + b)
      (b :: r.1, r.2)

def encodeFrame (payload : List Nat) : List Nat :=
  let r := encodeBody payload HEAD_BYTE
  let u8_checksum := r.2 &&& 0xFF
  if u8_checksum = HEAD_BYTE ∨ u8_checksum = ESCAPE_BYTE then
    HEAD_BYTE :: r.1 ++ [ESCAPE_BYTE, u8_checksum ^^^ ESCAPE_MASK]
  else
    HEAD_BYTE :: r.1 ++ [u8_checksum]

/-! ## Scheduler, command line parameters and timing

`setParameterFromCommandLine` with the two optional already-`atoi`-parsed
arguments; note that in unbounded mode (`loop_count_enable = false`) the
code still sets `loop_length` to `hz`. -/

def parseHz (arg1 : Option Int) : Int :=
  match arg1 with
  | none => HZ
  | some v => if v ≤ 0 ∨ 100000 ≤ v then HZ else v

/-- Returns `(hz, loop_length, loop_count_enable)`. -/
def setParameterFromCommandLine (arg1 arg2 : Option Int) : Int × Int × Bool :=
  match arg2 with
  | none => (parseHz arg1, parseHz arg1, false)
  | some v => if v ≤ 0 then (parseHz arg1, parseHz arg1, false) else (parseHz arg1, v, true)

/-- The `while(!errorFlag)` loop of `main`, counting ticks only.  `fuel` is
the number of times the loop condition still observes the cancellation flag
clear; when it reaches 0 the flag has been set and the loop exits.  Inside
the body `loop_count` is incremented and, in bounded mode, the loop breaks
once it reaches `loop_length`. -/
def schedLoop : Nat → Bool → Nat → Nat → Nat
  | 0, _, _, loop_count => loop_count
  | fuel + 1, enable, len, loop_count =>
    let c := loop_count + 1
    if enable ∧ len ≤ c then c else schedLoop fuel enable len c

/-- One whole run of `main`, returning `(final loop_count, diagnostic
emitted on stderr, exit status)`.  The diagnostic is emitted after the loop
iff `loop_count < loop_length`, and `main` always returns 0. -/
def mainRun (arg1 arg2 : Option Int) (cancelAfter : Nat) : Nat × Bool × Int :=
  let p := setParameterFromCommandLine arg1 arg2
  let final := schedLoop cancelAfter p.2.2 p.2.1.toNat 0
  (final, decide (final < p.2.1.toNat), 0)

/-- `gettimeofday` result: seconds and microseconds. -/
structure Timeval where
  tv_sec : Int
  tv_usec : Int
deriving DecidableEq

/-- The elapsed-time computation of the source:
`looptime = tv_end.tv_usec - tv_start.tv_usec`. -/
def looptimeCode (tv_start tv_end : Timeval) : Int :=
  tv_end.tv_usec - tv_start.tv_usec

/-- The full duration from start to end in microseconds. -/
def elapsedMicros (tv_start tv_end : Timeval) : Int :=
  (tv_end.tv_sec * 1000000 + tv_end.tv_usec) - (tv_start.tv_sec * 1000000 + tv_start.tv_usec)

/-! ## Claim C7: termination report -/

/-- C7: the claim asserts that in unbounded mode the diagnostic path can
never trigger.  It does: with no arguments the mode is unbounded yet
`loop_length` is set to `hz = 120`, so cancellation after 5 ticks leaves
`loop_count = 5 < 120` and the diagnostic is emitted. -/
theorem c7_unbounded_diag_counterexample :
    (setParameterFromCommandLine none none).2.2 = false ∧
    (mainRun none none 5).1 = 5 ∧
    (mainRun none none 5).2.1 = true ∧
    (mainRun none none 5).2.2 = 0 := by
  decide

/-- C7 (amended): the exit status is always 0; the diagnostic is emitted
iff the final tick count is strictly below `loop_length`; and in unbounded
mode `loop_length` equals `hz`, so the diagnostic does trigger whenever the
loop is cancelled before `hz` ticks. -/
theorem c7_termination_report_amended (arg1 arg2 : Option Int) (cancelAfter : Nat) :
    (mainRun arg1 arg2 cancelAfter).2.2 = 0 ∧
    ((mainRun arg1 arg2 cancelAfter).2.1 = true ↔
      (mainRun arg1 arg2 cancelAfter).1 < (setParameterFromCommandLine arg1 arg2).2.1.toNat) ∧
    ((setParameterFromCommandLine arg1 arg2).2.2 = false →
      (setParameterFromCommandLine arg1 arg2).2.1 = (setParameterFromCommandLine arg1 arg2).1) := by
  refine ⟨rfl, by simp [mainRun], ?_⟩
  cases arg2 with
  | none => intro _; rfl
  | some v =>
    by_cases hv : v ≤ 0 <;> simp [setParameterFromCommandLine, hv]

/-- C7 witness: the amended theorem instantiated at a bounded run. -/
theorem c7_termination_report_amended_witness :
    (mainRun none (some 50) 3).2.2 = 0 ∧
    ((mainRun none (some 50) 3).2.1 = true ↔
      (mainRun none (some 50) 3).1 < (setParameterFromCommandLine none (some 50)).2.1.toNat) ∧
    ((setParameterFromCommandLine none (some 50)).2.2 = false →
      (setParameterFromCommandLine none (some 50)).2.1 = (setParameterFromCommandLine none (some 50)).1) :=
  c7_termination_report_amended none (some 50) 3

/-! ## Claim C8: elapsed time across a one-second boundary -/

/-- C8: the claim (and the spec) require the full duration; the code
subtracts only the sub-second component.  At a tick spanning a one-second
boundary (start 10s+900000us, end 11s+100000us) the true elapsed time is
200000us but the code computes -800000us. -/
theorem c8_elapsed_subsecond_bug :
    looptimeCode ⟨10, 900000⟩ ⟨11, 100000⟩ = -800000 ∧
    elapsedMicros ⟨10, 900000⟩ ⟨11, 100000⟩ = 200000 ∧
    looptimeCode ⟨10, 900000⟩ ⟨11, 100000⟩ ≠ elapsedMicros ⟨10, 900000⟩ ⟨11, 100000⟩ := by
  refine ⟨rfl, rfl, ?_⟩
  decide

/-! ## Spec-side description of the encoder (section 4.2 of the spec) -/

/-- The transmitted (post-escape-transform) value of a payload byte. -/
def specTransform (b : Nat) : Nat :=
  if b = HEAD_BYTE ∨ b = ESCAPE_BYTE then b ^^^ ESCAPE_MASK else b

/-- The escaped payload as it appears on the wire: colliding bytes are
preceded by `ESCAPE_BYTE` and XORed with `ESCAPE_MASK`. -/
def specEscaped : List Nat → List Nat
  | [] => []
  | b :: rest =>
    (if b = HEAD_BYTE ∨ b = ESCAPE_BYTE then [ESCAPE_BYTE, b ^^^ ESCAPE_MASK] else [b]) ++
      specEscaped rest

/-- Sum of the transmitted (post-escape-transform) payload byte values,
escape marker bytes excluded. -/
def specSum : List Nat → Nat
  | [] => 0
  | b :: rest => specTransform b + specSum rest

/-- The checksum of the spec: low 8 bits of the header value plus the sum
of the transmitted payload bytes. -/
def specChecksum (p : List Nat) : Nat :=
  (HEAD_BYTE + specSum p) % 256

lemma encodeBody_spec (p : List Nat) : ∀ checksum : Nat,
    encodeBody p checksum = (specEscaped p, checksum + specSum p) := by
  induction p with
  | nil => intro cs; simp [encodeBody, specEscaped, specSum]
  | cons b rest ih =>
    intro cs
    by_cases hb : b = HEAD_BYTE ∨ b = ESCAPE_BYTE
    · simp only [encodeBody, specEscaped, specSum, specTransform, if_pos hb, ih,
        Prod.mk.injEq]
      exact ⟨rfl, by omega⟩
    · simp only [encodeBody, specEscaped, specSum, specTransform, if_neg hb, ih,
        Prod.mk.injEq]
      exact ⟨rfl, by omega⟩

lemma encodeFrame_eq (p : List Nat) :
    encodeFrame p = HEAD_BYTE :: (specEscaped p ++
      (if specChecksum p = HEAD_BYTE ∨ specChecksum p = ESCAPE_BYTE then
        [ESCAPE_BYTE, specChecksum p ^^^ ESCAPE_MASK]
      else [specChecksum p])) := by
  have h : (HEAD_BYTE + specSum p) &&& 0xFF = specChecksum p := by
    simpa [specChecksum] using Nat.and_pow_two_sub_one_eq_mod (HEAD_BYTE + specSum p) 8
  simp only [encodeFrame, encodeBody_spec, h]
  by_cases hcs : specChecksum p = HEAD_BYTE ∨ specChecksum p = ESCAPE_BYTE <;> simp [hcs]

/-! ## Claim C2: checksum construction -/

/-- C2: the transmitted frame is the header, the escaped payload, and a
checksum equal to the low 8 bits of the header value plus every transmitted
(post-escape-transform) payload byte with escape markers excluded; a
colliding checksum is itself escaped and sent XOR `ESCAPE_MASK`. -/
theorem c2_checksum_spec (p : List Nat) :
    encodeFrame p = HEAD_BYTE :: (specEscaped p ++
      (if specChecksum p = HEAD_BYTE ∨ specChecksum p = ESCAPE_BYTE then
        [ESCAPE_BYTE, specChecksum p ^^^ ESCAPE_MASK]
      else [specChecksum p])) :=
  encodeFrame_eq p

/-! ## Claim C3: escaping safety -/

/-- Byte-stuffing invariant on an encoded byte list, as a one-byte-step
state machine.  The flag records that the previous byte was an escape byte
whose masked follower is still expected.  With the flag down: no byte may
equal `HEAD_BYTE`, and an `ESCAPE_BYTE` raises the flag.  With the flag up:
the byte must be one of the two masked collider values. -/
def stuffOk : Bool → List Nat → Bool
  | afterEsc, [] => !afterEsc
  | afterEsc, b :: rest =>
    if afterEsc then
      (decide (b = HEAD_BYTE ^^^ ESCAPE_MASK ∨ b = ESCAPE_BYTE ^^^ ESCAPE_MASK)) &&
        stuffOk false rest
    else if b = HEAD_BYTE then false
    else if b = ESCAPE_BYTE then stuffOk true rest
    else stuffOk false rest

lemma stuffOk_specEscaped_append (p : List Nat) :
    ∀ t : List Nat, stuffOk false t = true → stuffOk false (specEscaped p ++ t) = true := by
  induction p with
  | nil => intro t ht; simpa [specEscaped]
  | cons b rest ih =>
    intro t ht
    by_cases hb : b = HEAD_BYTE ∨ b = ESCAPE_BYTE
    · have hc : b ^^^ ESCAPE_MASK = HEAD_BYTE ^^^ ESCAPE_MASK ∨
          b ^^^ ESCAPE_MASK = ESCAPE_BYTE ^^^ ESCAPE_MASK := by
        rcases hb with h | h
        · exact Or.inl (by rw [h])
        · exact Or.inr (by rw [h])
      have e1 : ¬ (ESCAPE_BYTE = HEAD_BYTE) := by decide
      simp [specEscaped, if_pos hb, stuffOk, e1, hc, hb, ih t ht]
    · have hb1 : ¬ b = HEAD_BYTE := fun h => hb (Or.inl h)
      have hb2 : ¬ b = ESCAPE_BYTE := fun h => hb (Or.inr h)
      simp [specEscaped, if_neg hb, stuffOk, hb1, hb2, ih t ht]

lemma stuffOk_frame_tail (p : List Nat) :
    stuffOk false (specEscaped p ++
      (if specChecksum p = HEAD_BYTE ∨ specChecksum p = ESCAPE_BYTE then
        [ESCAPE_BYTE, specChecksum p ^^^ ESCAPE_MASK]
      else [specChecksum p])) = true := by
  apply stuffOk_specEscaped_append
  by_cases hcs : specChecksum p = HEAD_BYTE ∨ specChecksum p = ESCAPE_BYTE
  · have hc2 : specChecksum p ^^^ ESCAPE_MASK = HEAD_BYTE ^^^ ESCAPE_MASK ∨
        specChecksum p ^^^ ESCAPE_MASK = ESCAPE_BYTE ^^^ ESCAPE_MASK := by
      rcases hcs with h | h
      · exact Or.inl (by rw [h])
      · exact Or.inr (by rw [h])
    have e1 : ¬ (ESCAPE_BYTE = HEAD_BYTE) := by decide
    simp [hcs, stuffOk, e1, hc2]
  · have h1 : ¬ specChecksum p = HEAD_BYTE := fun h => hcs (Or.inl h)
    have h2 : ¬ specChecksum p = ESCAPE_BYTE := fun h => hcs (Or.inr h)
    simp [hcs, stuffOk, h1, h2]

lemma stuffOk_getD : ∀ s : List Nat, stuffOk false s = true → ∀ i, i < s.length →
    s.getD i 0 ≠ HEAD_BYTE ∧
    (s.getD i 0 = ESCAPE_BYTE →
      i + 1 < s.length ∧
      (s.getD (i + 1) 0 = HEAD_BYTE ^^^ ESCAPE_MASK ∨
       s.getD (i + 1) 0 = ESCAPE_BYTE ^^^ ESCAPE_MASK)) := by
  intro s
  induction s with
  | nil => intro _ i hi; simp at hi
  | cons b rest ih =>
    intro hs i hi
    by_cases hb1 : b = HEAD_BYTE
    · exfalso
      simp [stuffOk, hb1] at hs
    · by_cases hb2 : b = ESCAPE_BYTE
      · cases rest with
        | nil => exfalso; simp [stuffOk, hb1, hb2] at hs
        | cons c rest2 =>
          have hsc : (c = HEAD_BYTE ^^^ ESCAPE_MASK ∨ c = ESCAPE_BYTE ^^^ ESCAPE_MASK) ∧
              stuffOk false rest2 = true := by
            have e1 : ¬ (ESCAPE_BYTE = HEAD_BYTE) := by decide
            simpa [stuffOk, hb1, hb2, e1] using hs
          have hcne1 : ¬ c = HEAD_BYTE := by
            rcases hsc.1 with h | h <;> subst h <;> decide
          have hcne2 : ¬ c = ESCAPE_BYTE := by
            rcases hsc.1 with h | h <;> subst h <;> decide
          have hrest : stuffOk false (c :: rest2) = true := by
            simp [stuffOk, hcne1, hcne2, hsc.2]
          match i with
          | 0 =>
            refine ⟨hb1, fun _ => ⟨?_, ?_⟩⟩
            · simp
            · simpa using hsc.1
          | Nat.succ j =>
            have hj : j < (c :: rest2).length := by
              simpa using Nat.lt_of_succ_lt_succ hi
            have h := ih hrest j hj
            refine ⟨by simpa using h.1, fun he => ?_⟩
            have h2 := h.2 (by simpa using he)
            refine ⟨by simp; simpa using h2.1, by simpa using h2.2⟩
      · have hrest : stuffOk false rest = true := by
          simpa [stuffOk, hb1, hb2] using hs
        match i with
        | 0 => exact ⟨hb1, fun h => absurd h hb2⟩
        | Nat.succ j =>
          have hj : j < rest.length := by
            simpa using Nat.lt_of_succ_lt_succ hi
          have h := ih hrest j hj
          refine ⟨by simpa using h.1, fun he => ?_⟩
          have h2 := h.2 (by simpa using he)
          refine ⟨by simp; simpa using h2.1, by simpa using h2.2⟩

/-- C3: the claim as stated is false: the inserted escape byte 0x7E is
itself an occurrence of 0x7E that is not the leading header byte, yet it is
not preceded by an escape byte.  For payload `[0x7D]` the frame byte at
position 1 is 0x7E and its predecessor (position 0, the header 0x7D) is not
0x7E. -/
theorem c3_escaping_safety_counterexample :
    1 < (encodeFrame [HEAD_BYTE]).length ∧
    (encodeFrame [HEAD_BYTE]).getD 1 0 = ESCAPE_BYTE ∧
    (encodeFrame [HEAD_BYTE]).getD 0 0 ≠ ESCAPE_BYTE := by
  decide

/-- C3 (amended): in every encoded frame, no byte after the leading header
equals 0x7D, and every occurrence of 0x7E after the leading header is an
inserted escape marker: it is immediately followed by a byte that differs
from the original colliding byte (0x7D or 0x7E) by exactly XOR 0x20. -/
theorem c3_escaping_safety_amended (p : List Nat) (i : Nat) (h1 : 1 ≤ i)
    (h2 : i < (encodeFrame p).length) :
    (encodeFrame p).getD i 0 ≠ HEAD_BYTE ∧
    ((encodeFrame p).getD i 0 = ESCAPE_BYTE →
      i + 1 < (encodeFrame p).length ∧
      ((encodeFrame p).getD (i + 1) 0 = HEAD_BYTE ^^^ ESCAPE_MASK ∨
       (encodeFrame p).getD (i + 1) 0 = ESCAPE_BYTE ^^^ ESCAPE_MASK)) := by
  obtain ⟨j, rfl⟩ : ∃ j, i = j + 1 := ⟨i - 1, by omega⟩
  rw [encodeFrame_eq] at h2 ⊢
  simp only [List.getD_cons_succ, List.length_cons] at h2 ⊢
  have h := stuffOk_getD _ (stuffOk_frame_tail p) j (by omega)
  exact ⟨h.1, fun he => ⟨by have := (h.2 he).1; omega, (h.2 he).2⟩⟩

/-- C3 witness: payload `[17, 0x7D]`, position 2 holds the escape byte and
position 3 its masked follower. -/
theorem c3_escaping_safety_amended_witness :
    (encodeFrame [17, HEAD_BYTE]).getD 2 0 ≠ HEAD_BYTE ∧
    ((encodeFrame [17, HEAD_BYTE]).getD 2 0 = ESCAPE_BYTE →
      2 + 1 < (encodeFrame [17, HEAD_BYTE]).length ∧
      ((encodeFrame [17, HEAD_BYTE]).getD (2 + 1) 0 = HEAD_BYTE ^^^ ESCAPE_MASK ∨
       (encodeFrame [17, HEAD_BYTE]).getD (2 + 1) 0 = ESCAPE_BYTE ^^^ ESCAPE_MASK)) :=
  c3_escaping_safety_amended [17, HEAD_BYTE] 2 (by decide) (by decide)

/-! ## Claim C9: number of transport writes per frame -/

lemma specEscaped_length (p : List Nat) :
    p.length ≤ (specEscaped p).length ∧ (specEscaped p).length ≤ 2 * p.length := by
  induction p with
  | nil => simp [specEscaped]
  | cons b rest ih =>
    by_cases hb : b = HEAD_BYTE ∨ b = ESCAPE_BYTE <;>
      simp [specEscaped, hb] <;> omega

/-- C9: the claim bounds the writes by payload length + 2, but escape
insertion exceeds that: payload `[0x7D]` produces 4 single-byte writes
(header, escape, masked byte, checksum), more than 1 + 2. -/
theorem c9_write_count_counterexample :
    (encodeFrame [HEAD_BYTE]).length = 4 ∧
    ¬ ((encodeFrame [HEAD_BYTE]).length ≤ [HEAD_BYTE].length + 2) := by
  decide

/-- C9 (amended): every call performs between 1 and 2 * payload length + 3
single-byte transport writes (header, at most 2 bytes per payload byte, at
most 2 bytes of checksum). -/
theorem c9_write_count_amended (p : List Nat) :
    1 ≤ (encodeFrame p).length ∧ (encodeFrame p).length ≤ 2 * p.length + 3 := by
  have h := specEscaped_length p
  have hlen : (encodeFrame p).length = 1 + (specEscaped p).length +
      (if specChecksum p = HEAD_BYTE ∨ specChecksum p = ESCAPE_BYTE then 2 else 1) := by
    rw [encodeFrame_eq]
    by_cases hcs : specChecksum p = HEAD_BYTE ∨ specChecksum p = ESCAPE_BYTE
    · rw [if_pos hcs, if_pos hcs]
      simp only [List.length_cons, List.length_append, List.length_nil]
      omega
    · rw [if_neg hcs, if_neg hcs]
      simp only [List.length_cons, List.length_append, List.length_nil]
      omega
  rw [hlen]
  by_cases hcs : specChecksum p = HEAD_BYTE ∨ specChecksum p = ESCAPE_BYTE
  · rw [if_pos hcs]
    omega
  · rw [if_neg hcs]
    omega

/-! ## Disjoint bitwise-or arithmetic

`(a <<< k) ||| b = a * 2 ^ k + b` when `b < 2 ^ k`: the single bridge that
turns the bit-packing formulas into plain arithmetic. -/

lemma lorAddPow (k : Nat) : ∀ a b : Nat, b < 2 ^ k → (a <<< k) ||| b = a * 2 ^ k + b := by
  induction k with
  | zero =>
    intro a b hb
    have hb0 : b = 0 := by omega
    subst hb0
    simp [Nat.shiftLeft_eq]
  | succ k ih =>
    intro a b hb
    have hpow : 2 ^ (k + 1) = 2 ^ k * 2 := by ring
    have hd : b / 2 < 2 ^ k := by omega
    have h1 : a <<< (k + 1) = Nat.bit false (a <<< k) := by
      simp [Nat.bit_val, Nat.shiftLeft_eq, hpow]
      ring
    have h2 : b = Nat.bit b.bodd b.div2 := (Nat.bit_decomp b).symm
    have hm : (Nat.bodd b).toNat = b % 2 := by
      rcases hbb : Nat.bodd b <;> simp [Nat.mod_two_of_bodd, hbb]
    calc (a <<< (k + 1)) ||| b
        = Nat.bit false (a <<< k) ||| Nat.bit b.bodd b.div2 := by rw [← h1, ← h2]
      _ = Nat.bit (false || b.bodd) ((a <<< k) ||| b.div2) := by rw [Nat.lor_bit]
      _ = 2 * (a * 2 ^ k + b / 2) + b % 2 := by
            rw [Nat.bit_val, Bool.false_or, hm, Nat.div2_val, ih a (b / 2) hd]
      _ = a * 2 ^ (k + 1) + b := by
            have hx : a * 2 ^ (k + 1) = 2 * (a * 2 ^ k) := by rw [hpow]; ring
            rw [hx]
            omega

lemma and_mask1 (n : Nat) : n &&& 1 = n % 2 := by
  simpa using Nat.and_pow_two_sub_one_eq_mod n 1

lemma and_mask7 (n : Nat) : n &&& 7 = n % 8 := by
  simpa using Nat.and_pow_two_sub_one_eq_mod n 3

lemma and_mask15 (n : Nat) : n &&& 15 = n % 16 := by
  simpa using Nat.and_pow_two_sub_one_eq_mod n 4

lemma and_mask31 (n : Nat) : n &&& 31 = n % 32 := by
  simpa using Nat.and_pow_two_sub_one_eq_mod n 5

lemma and_mask63 (n : Nat) : n &&& 63 = n % 64 := by
  simpa using Nat.and_pow_two_sub_one_eq_mod n 6

lemma and_mask127 (n : Nat) : n &&& 127 = n % 128 := by
  simpa using Nat.and_pow_two_sub_one_eq_mod n 7

lemma and_mask255 (n : Nat) : n &&& 255 = n % 256 := by
  simpa using Nat.and_pow_two_sub_one_eq_mod n 8

lemma shr1 (n : Nat) : n >>> 1 = n / 2 := by
  simpa using Nat.shiftRight_eq_div_pow n 1

lemma shr3 (n : Nat) : n >>> 3 = n / 8 := by
  simpa using Nat.shiftRight_eq_div_pow n 3

lemma shr5 (n : Nat) : n >>> 5 = n / 32 := by
  simpa using Nat.shiftRight_eq_div_pow n 5

lemma shr7 (n : Nat) : n >>> 7 = n / 128 := by
  simpa using Nat.shiftRight_eq_div_pow n 7

lemma shr8 (n : Nat) : n >>> 8 = n / 256 := by
  simpa using Nat.shiftRight_eq_div_pow n 8

lemma shr11 (n : Nat) : n >>> 11 = n / 2048 := by
  simpa using Nat.shiftRight_eq_div_pow n 11

lemma lorAdd2 (a b : Nat) (hb : b < 2) : (a <<< 1) ||| b = a * 2 + b := by
  simpa using lorAddPow 1 a b (by simpa using hb)

lemma lorAdd8 (a b : Nat) (hb : b < 8) : (a <<< 3) ||| b = a * 8 + b := by
  simpa using lorAddPow 3 a b (by simpa using hb)

lemma lorAdd32 (a b : Nat) (hb : b < 32) : (a <<< 5) ||| b = a * 32 + b := by
  simpa using lorAddPow 5 a b (by simpa using hb)

lemma lorAdd128 (a b : Nat) (hb : b < 128) : (a <<< 7) ||| b = a * 128 + b := by
  simpa using lorAddPow 7 a b (by simpa using hb)

lemma lorAdd256 (a b : Nat) (hb : b < 256) : (a <<< 8) ||| b = a * 256 + b := by
  simpa using lorAddPow 8 a b (by simpa using hb)

lemma lorAdd2048 (a b : Nat) (hb : b < 2048) : (a <<< 11) ||| b = a * 2048 + b := by
  simpa using lorAddPow 11 a b (by simpa using hb)

/-! ## Claim C1: packing formulas -/

/-- The packing formulas exactly as written in the spec, evaluated as plain
unsigned-integer arithmetic with no byte truncation. -/
def specPackLiteral (datatype : Nat) (st : PayloadState) : List Nat :=
  match datatype with
  | 0 => [(0 <<< 5) ||| (st.x_vector >>> 7),
          ((st.x_vector &&& 0x7F) <<< 1) ||| (st.y_vector >>> 11),
          (st.y_vector >>> 3) &&& 0xFF,
          ((st.y_vector &&& 0x3F) <<< 5) ||| (st.th_vector >>> 8),
          st.th_vector &&& 0xFF]
  | 1 => [(1 <<< 5) ||| (st.calib_data >>> 8),
          st.calib_data &&& 0xFF]
  | 2 => [(2 <<< 5) ||| st.command]
  | _ => []

/-- The spec formulas with each value truncated to its low 8 bits, i.e. the
byte that a `uint8_t` store of the formula value produces. -/
def specPackBytes (datatype : Nat) (st : PayloadState) : List Nat :=
  (specPackLiteral datatype st).map (· % 256)

/-- C1: the claim reads the formulas as producing the bytes directly, but
the b3 formula `((y & 0x3F) << 5) | (th >> 8)` exceeds one byte: at the
in-range input x=0, y=8, th=0 it evaluates to 256 while the code stores the
truncated byte 0.  So pack does not equal the literal formula values. -/
theorem c1_literal_formula_counterexample :
    (8 : Nat) < 2 ^ 12 ∧
    (specPackLiteral 0 ⟨0, 8, 0, 0, 0⟩).getD 3 0 = 256 ∧
    (setSendDataFromROSBus 0 ⟨0, 8, 0, 0, 0⟩ []).getD 3 0 = 0 ∧
    setSendDataFromROSBus 0 ⟨0, 8, 0, 0, 0⟩ [] ≠ specPackLiteral 0 ⟨0, 8, 0, 0, 0⟩ := by
  decide

/-- C1 (amended): for every datatype in {0,1,2} and fields within the
declared bit widths, pack produces exactly the spec formula values each
truncated to its low 8 bits (only the b3 formula is affected by the
truncation). -/
theorem c1_pack_matches_spec_formulas_mod256 (st : PayloadState)
    (hx : st.x_vector < 2 ^ 12) (hy : st.y_vector < 2 ^ 12) (hth : st.th_vector < 2 ^ 12)
    (hcal : st.calib_data < 2 ^ 13) (hcmd : st.command < 2 ^ 5) :
    setSendDataFromROSBus 0 st [] = specPackBytes 0 st ∧
    setSendDataFromROSBus 1 st [] = specPackBytes 1 st ∧
    setSendDataFromROSBus 2 st [] = specPackBytes 2 st := by
  have e0 : (0 : Nat) &&& 7 = 0 := by decide
  have e1 : (1 : Nat) &&& 7 = 1 := by decide
  have e2 : (2 : Nat) &&& 7 = 2 := by decide
  refine ⟨?_, ?_, ?_⟩ <;>
    simp [setSendDataFromROSBus, specPackBytes, specPackLiteral, Nat.zero_or, e0, e1, e2]

/-- C1 witness: the amended theorem at a concrete in-range state. -/
theorem c1_pack_matches_spec_formulas_mod256_witness :
    setSendDataFromROSBus 0 ⟨1234, 567, 89, 5000, 17⟩ [] = specPackBytes 0 ⟨1234, 567, 89, 5000, 17⟩ ∧
    setSendDataFromROSBus 1 ⟨1234, 567, 89, 5000, 17⟩ [] = specPackBytes 1 ⟨1234, 567, 89, 5000, 17⟩ ∧
    setSendDataFromROSBus 2 ⟨1234, 567, 89, 5000, 17⟩ [] = specPackBytes 2 ⟨1234, 567, 89, 5000, 17⟩ :=
  c1_pack_matches_spec_formulas_mod256 ⟨1234, 567, 89, 5000, 17⟩
    (by decide) (by decide) (by decide) (by decide) (by decide)

/-! ## Claim C5: boundary scenario -/

/-- C5: at datatype 0, x=4095, y=0, th=0 the second byte is 0xFE, not the
0x02 the claim states. -/
theorem c5_boundary_counterexample :
    (setSendDataFromROSBus 0 ⟨4095, 0, 0, 0, 0⟩ []).getD 1 0 = 0xFE ∧
    setSendDataFromROSBus 0 ⟨4095, 0, 0, 0, 0⟩ [] ≠ [0x1F, 0x02, 0x00, 0x00, 0x00] := by
  decide

/-- C5 (amended): the boundary scenario packs to 0x1F, 0xFE, 0x00, 0x00,
0x00; none of these bytes equals 0x7D or 0x7E, and the whole encoded frame
contains no escape byte (7 writes: header, 5 payload bytes, checksum 0x9A). -/
theorem c5_boundary_amended :
    setSendDataFromROSBus 0 ⟨4095, 0, 0, 0, 0⟩ [] = [0x1F, 0xFE, 0x00, 0x00, 0x00] ∧
    encodeFrame [0x1F, 0xFE, 0x00, 0x00, 0x00] =
      [HEAD_BYTE, 0x1F, 0xFE, 0x00, 0x00, 0x00, 0x9A] ∧
    ESCAPE_BYTE ∉ encodeFrame [0x1F, 0xFE, 0x00, 0x00, 0x00] := by
  decide

/-! ## Claim C6: invalid datatype tag -/

inductive PackError where
  | InvalidDatatype
deriving DecidableEq

/-- The packer the spec describes: datatype tags outside {0,1,2} fail with
`InvalidDatatype`; written to compare the spec error contract against the
code. -/
def specPackExcept (datatype : Nat) (st : PayloadState) : Except PackError (List Nat) :=
  if datatype ≤ 2 then Except.ok (specPackBytes datatype st)
  else Except.error PackError.InvalidDatatype

/-- C6: the claim requires a propagated `InvalidDatatype` failure for tags
outside {0,1,2}; the code has no error channel at all — its `default`
branch silently appends nothing, so packing tag 3 returns the buffer
unchanged where the spec demands an error. -/
theorem c6_invalid_datatype_counterexample :
    setSendDataFromROSBus 3 ⟨1, 2, 3, 4, 5⟩ [9] = [9] ∧
    specPackExcept 3 ⟨1, 2, 3, 4, 5⟩ = Except.error PackError.InvalidDatatype :=
  ⟨rfl, rfl⟩

/-- C6 (amended): for every datatype tag outside {0,1,2}, pack appends no
bytes and returns normally; no error is raised or propagated. -/
theorem c6_invalid_datatype_amended (d : Nat) (st : PayloadState) (buf : List Nat)
    (h : 3 ≤ d) :
    setSendDataFromROSBus d st buf = buf := by
  obtain ⟨e, rfl⟩ : ∃ e, d = e + 3 := ⟨d - 3, by omega⟩
  rfl

/-- C6 witness: tag 7 leaves the buffer unchanged. -/
theorem c6_invalid_datatype_amended_witness :
    setSendDataFromROSBus 7 ⟨0, 0, 0, 0, 0⟩ [1, 2] = [1, 2] :=
  c6_invalid_datatype_amended 7 ⟨0, 0, 0, 0, 0⟩ [1, 2] (by decide)

/-! ## Claim C10: the send buffer is erased after every frame -/

/-- One scheduler tick: the three datatypes are packed into the shared
`send_buffer`, each frame is encoded and written, and after each frame
`send_buffer.erase(begin, end)` deletes every element.  Returns the three
frames and the final buffer contents. -/
def tickFrames (st : PayloadState) (buf : List Nat) : List (List Nat) × List Nat :=
  let b1 := setSendDataFromROSBus 0 st buf
  let f1 := encodeFrame b1
  let buf1 : List Nat := []
  let b2 := setSendDataFromROSBus 1 st buf1
  let f2 := encodeFrame b2
  let buf2 : List Nat := []
  let b3 := setSendDataFromROSBus 2 st buf2
  let f3 := encodeFrame b3
  let buf3 : List Nat := []
  ([f1, f2, f3], buf3)

/-- A run of consecutive ticks, one `PayloadState` per tick, threading the
shared buffer through. -/
def runTicks : List PayloadState → List Nat → List (List Nat) × List Nat
  | [], buf => ([], buf)
  | st :: rest, buf =>
    let t := tickFrames st buf
    let r := runTicks rest t.2
    (t.1 ++ r.1, r.2)

/-- C10: starting from the empty buffer, every frame of every tick encodes
exactly the bytes of the most recent pack call applied to an empty buffer —
payload bytes never accumulate across the three per-tick datatypes or
across ticks — and the buffer is empty again after the run. -/
theorem c10_buffer_erased (sts : List PayloadState) :
    runTicks sts [] =
      ((sts.map fun st =>
        [encodeFrame (setSendDataFromROSBus 0 st []),
         encodeFrame (setSendDataFromROSBus 1 st []),
         encodeFrame (setSendDataFromROSBus 2 st [])]).flatten, []) := by
  induction sts with
  | nil => rfl
  | cons st rest ih => simp [runTicks, tickFrames, ih]

/-! ## Claim C4: round trip

The spec defines the decoder (none exists in the source): drop each escape
byte and XOR the following byte with the escape mask, then invert the
packing formulas of section 4.1. -/

/-- Inverse of the escaping transform.  The flag records that the previous
byte was an escape byte whose follower must be unmasked. -/
def unescapeBytes : Bool → List Nat → List Nat
  | _, [] => []
  | true, b :: rest => (b ^^^ ESCAPE_MASK) :: unescapeBytes false rest
  | false, b :: rest =>
    if b = ESCAPE_BYTE then unescapeBytes true rest
    else b :: unescapeBytes false rest

/-- Inverse of the packing formulas: the tag is the top 3 bits of the first
byte, the fields are reassembled from the byte pieces. -/
def unpackPayload : List Nat → Option (Nat × List Nat)
  | [b0, b1, b2, b3, b4] =>
    if b0 >>> 5 = 0 then
      some (0, [((b0 &&& 0x1F) <<< 7) ||| (b1 >>> 1),
                ((b1 &&& 0x1) <<< 11) ||| ((b2 <<< 3) ||| (b3 >>> 5)),
                ((b3 &&& 0xF) <<< 8) ||| b4])
    else none
  | [b0, b1] =>
    if b0 >>> 5 = 1 then some (1, [((b0 &&& 0x1F) <<< 8) ||| b1]) else none
  | [b0] =>
    if b0 >>> 5 = 2 then some (2, [b0 &&& 0x1F]) else none
  | _ => none

/-- Whole-frame decoder: check and strip the header, undo the escaping,
drop the trailing checksum byte, invert the packing. -/
def decodeFrame (s : List Nat) : Option (Nat × List Nat) :=
  match s with
  | [] => none
  | b :: rest =>
    if b = HEAD_BYTE then unpackPayload (unescapeBytes false rest).dropLast else none

lemma unescape_specEscaped (p : List Nat) :
    ∀ t : List Nat, unescapeBytes false (specEscaped p ++ t) = p ++ unescapeBytes false t := by
  induction p with
  | nil => intro t; rfl
  | cons b rest ih =>
    intro t
    by_cases hb : b = HEAD_BYTE ∨ b = ESCAPE_BYTE
    · simp [specEscaped, hb, unescapeBytes, Nat.xor_cancel_right, ih t]
    · have hb1 : ¬ b = HEAD_BYTE := fun h => hb (Or.inl h)
      have hb2 : ¬ b = ESCAPE_BYTE := fun h => hb (Or.inr h)
      simp [specEscaped, hb, hb1, unescapeBytes, hb2, ih t]

/-- Decoding an encoded frame reduces to unpacking the raw payload. -/
lemma decode_encode (p : List Nat) :
    decodeFrame (encodeFrame p) = unpackPayload p := by
  rw [encodeFrame_eq]
  have hcs : unescapeBytes false
      (if specChecksum p = HEAD_BYTE ∨ specChecksum p = ESCAPE_BYTE then
        [ESCAPE_BYTE, specChecksum p ^^^ ESCAPE_MASK]
      else [specChecksum p]) = [specChecksum p] := by
    by_cases h : specChecksum p = HEAD_BYTE ∨ specChecksum p = ESCAPE_BYTE
    · simp [h, unescapeBytes, Nat.xor_cancel_right]
    · have h1 : ¬ specChecksum p = HEAD_BYTE := fun hh => h (Or.inl hh)
      have h2 : ¬ specChecksum p = ESCAPE_BYTE := fun hh => h (Or.inr hh)
      simp [h, h1, h2, unescapeBytes]
  simp [decodeFrame, unescape_specEscaped, hcs]

lemma unpack_pack_velocity (x y th cal cmd : Nat)
    (hx : x < 2 ^ 12) (hy : y < 2 ^ 12) (hth : th < 2 ^ 12) :
    unpackPayload (setSendDataFromROSBus 0 ⟨x, y, th, cal, cmd⟩ []) =
      some (0, [x, y, th]) := by
  have e00 : ((0 : Nat) &&& 7) <<< 5 = 0 := by decide
  have hB0 : (((0 &&& 0x7) <<< 5) ||| (x >>> 7)) % 256 = x / 128 := by
    rw [e00, Nat.zero_or, shr7]
    omega
  have hB1 : (((x &&& 0x7F) <<< 1) ||| (y >>> 11)) % 256 = x % 128 * 2 + y / 2048 := by
    rw [and_mask127, shr11, lorAdd2 _ _ (by omega)]
    omega
  have hB2 : ((y >>> 3) &&& 0xFF) % 256 = y / 8 % 256 := by
    rw [shr3, and_mask255]
    omega
  have hB3 : (((y &&& 0x3F) <<< 5) ||| (th >>> 8)) % 256 = y % 8 * 32 + th / 256 := by
    rw [and_mask63, shr8, lorAdd32 _ _ (by omega)]
    omega
  have hB4 : (th &&& 0xFF) % 256 = th % 256 := by
    rw [and_mask255]
    omega
  simp only [setSendDataFromROSBus, List.nil_append, hB0, hB1, hB2, hB3, hB4]
  have hguard : (x / 128) >>> 5 = 0 := by
    rw [shr5]
    omega
  simp only [unpackPayload, hguard, if_true, eq_self_iff_true]
  rw [and_mask31, shr1, lorAdd128 _ _ (by omega), and_mask1, shr5,
      lorAdd8 _ _ (by omega), lorAdd2048 _ _ (by omega), and_mask15, lorAdd256 _ _ (by omega)]
  simp only [Option.some.injEq, Prod.mk.injEq, List.cons.injEq, and_true, true_and,
    eq_self_iff_true]
  omega

lemma unpack_pack_calib (x y th cal cmd : Nat) (hcal : cal < 2 ^ 13) :
    unpackPayload (setSendDataFromROSBus 1 ⟨x, y, th, cal, cmd⟩ []) =
      some (1, [cal]) := by
  have e1 : (1 : Nat) &&& 7 = 1 := by decide
  have hB0 : (((1 &&& 0x7) <<< 5) ||| (cal >>> 8)) % 256 = 32 + cal / 256 := by
    rw [e1, shr8, lorAdd32 _ _ (by omega)]
    omega
  have hB1 : (cal &&& 0xFF) % 256 = cal % 256 := by
    rw [and_mask255]
    omega
  simp only [setSendDataFromROSBus, List.nil_append, hB0, hB1]
  have hguard : (32 + cal / 256) >>> 5 = 1 := by
    rw [shr5]
    omega
  simp only [unpackPayload, hguard, if_true, eq_self_iff_true]
  rw [and_mask31, lorAdd256 _ _ (by omega)]
  simp only [Option.some.injEq, Prod.mk.injEq, List.cons.injEq, and_true, true_and,
    eq_self_iff_true]
  omega

lemma unpack_pack_kicker (x y th cal cmd : Nat) (hcmd : cmd < 2 ^ 5) :
    unpackPayload (setSendDataFromROSBus 2 ⟨x, y, th, cal, cmd⟩ []) =
      some (2, [cmd]) := by
  have e2 : (2 : Nat) &&& 7 = 2 := by decide
  have hB0 : (((2 &&& 0x7) <<< 5) ||| cmd) % 256 = 64 + cmd := by
    rw [e2, lorAdd32 _ _ (by omega)]
    omega
  simp only [setSendDataFromROSBus, List.nil_append, hB0]
  have hguard : (64 + cmd) >>> 5 = 2 := by
    rw [shr5]
    omega
  simp only [unpackPayload, hguard, if_true, eq_self_iff_true]
  rw [and_mask31]
  simp only [Option.some.injEq, Prod.mk.injEq, List.cons.injEq, and_true, true_and,
    eq_self_iff_true]
  omega

/-- C4: for every datatype in {0,1,2} and fields within the declared bit
widths, decoding the encoded frame (undo the escaping, drop the checksum,
invert the bit formulas) recovers the datatype and field values exactly. -/
theorem c4_roundtrip (st : PayloadState)
    (hx : st.x_vector < 2 ^ 12) (hy : st.y_vector < 2 ^ 12) (hth : st.th_vector < 2 ^ 12)
    (hcal : st.calib_data < 2 ^ 13) (hcmd : st.command < 2 ^ 5) :
    decodeFrame (encodeFrame (setSendDataFromROSBus 0 st [])) =
      some (0, [st.x_vector, st.y_vector, st.th_vector]) ∧
    decodeFrame (encodeFrame (setSendDataFromROSBus 1 st [])) =
      some (1, [st.calib_data]) ∧
    decodeFrame (encodeFrame (setSendDataFromROSBus 2 st [])) =
      some (2, [st.command]) := by
  obtain ⟨x, y, th, cal, cmd⟩ := st
  refine ⟨?_, ?_, ?_⟩ <;> rw [decode_encode]
  · exact unpack_pack_velocity x y th cal cmd hx hy hth
  · exact unpack_pack_calib x y th cal cmd hcal
  · exact unpack_pack_kicker x y th cal cmd hcmd

/-- C4 witness: the round trip at a concrete in-range state. -/
theorem c4_roundtrip_witness :
    decodeFrame (encodeFrame (setSendDataFromROSBus 0 ⟨1234, 567, 89, 5000, 17⟩ [])) =
      some (0, [1234, 567, 89]) ∧
    decodeFrame (encodeFrame (setSendDataFromROSBus 1 ⟨1234, 567, 89, 5000, 17⟩ [])) =
      some (1, [5000]) ∧
    decodeFrame (encodeFrame (setSendDataFromROSBus 2 ⟨1234, 567, 89, 5000, 17⟩ [])) =
      some (2, [17]) :=
  c4_roundtrip ⟨1234, 567, 89, 5000, 17⟩ (by decide) (by decide) (by decide) (by decide)
    (by decide)
